import Mathlib

/-!
Verification of the adaptive concurrency and request-throttling core of the
vulmap repository (`common/rate_limiter.py`, `common/concurrent_manager.py`).

The Python code is shallowly embedded: time values, delays and percentages are
rationals (`ℚ`), counters are naturals, Python `int` rates are integers (`ℤ`).
Python float literals `1.1`, `0.9`, `0.7`, `0.6` are modelled by the exact
rationals they denote in the source text; at every concrete input appearing in
the theorems below the double-precision computation and the rational one agree.
Each blocking call (`time.time()`, `time.sleep`) is made explicit: a function
takes the current time `now` as an argument and returns slept durations as data.
-/

namespace Vulmap

/-- Python `int(x)` conversion: truncation toward zero
(`Int.tdiv` of the numerator by the positive denominator). -/
def pyInt (q : ℚ) : ℤ := q.num.tdiv q.den

/-! ### AdaptiveRateLimiter (rate_limiter.py lines 124-206) -/

/-- The rate-adjustment step of `AdaptiveRateLimiter.report_result`
(rate_limiter.py lines 189-197), as a function of the counters at the moment of
window rollover: `success_rate = success_count / max(1, success_count +
failure_count)`; if it exceeds 0.9 the rate becomes `min(max_rate,
int(current_rate * 1.1))`, if it is below 0.7 the rate becomes `max(min_rate,
int(current_rate * 0.9))`, otherwise it is unchanged. -/
def adjustedRate (s f : ℕ) (rate minR maxR : ℤ) : ℤ :=
  let success_rate : ℚ := (s : ℚ) / (max 1 (s + f) : ℕ)
  if success_rate > 9/10 then min maxR (pyInt ((rate : ℚ) * (11/10)))
  else if success_rate < 7/10 then max minR (pyInt ((rate : ℚ) * (9/10)))
  else rate

/-- The rate-adjustment step as the SPEC describes it, for comparison with
`adjustedRate`: `success_rate = success_count / (success_count+failure_count)`,
with a zero-denominator window treated as success rate 1.0. -/
def specAdjustedRate (s f : ℕ) (rate minR maxR : ℤ) : ℤ :=
  let success_rate : ℚ := if s + f = 0 then 1 else (s : ℚ) / ((s + f : ℕ) : ℚ)
  if success_rate > 9/10 then min maxR (pyInt ((rate : ℚ) * (11/10)))
  else if success_rate < 7/10 then max minR (pyInt ((rate : ℚ) * (9/10)))
  else rate

/-- State of `AdaptiveRateLimiter` (rate_limiter.py lines 139-149): the rate
bounds, the current rate, the rolling success/failure counters, the window
bookkeeping, and the `max_requests` field of every per-host limiter created so
far (`self.limiters.values()`), in creation order. -/
structure AdaptiveState where
  min_rate : ℤ
  max_rate : ℤ
  current_rate : ℤ
  success_count : ℕ
  failure_count : ℕ
  window_start : ℚ
  window_size : ℚ
  limiters : List ℤ
  deriving DecidableEq, Repr

/-- One call of `AdaptiveRateLimiter.report_result` (rate_limiter.py lines
171-206) at time `now`: increment the matching counter; then, if `window_size`
seconds have elapsed since `window_start`, recompute the rate via
`adjustedRate`, reset both counters and `window_start`, and write the new rate
into `max_requests` of every existing per-host limiter. -/
def reportResult (st : AdaptiveState) (success : Bool) (now : ℚ) : AdaptiveState :=
  let st := if success then { st with success_count := st.success_count + 1 }
            else { st with failure_count := st.failure_count + 1 }
  if st.window_size ≤ now - st.window_start then
    let rate := adjustedRate st.success_count st.failure_count
      st.current_rate st.min_rate st.max_rate
    { st with current_rate := rate, window_start := now,
              success_count := 0, failure_count := 0,
              limiters := st.limiters.map fun _ => rate }
  else st

/-- A sequence of `report_result` calls, each given as (success, call time). -/
def runReports (st : AdaptiveState) (calls : List (Bool × ℚ)) : AdaptiveState :=
  calls.foldl (fun s c => reportResult s c.1 c.2) st

/-! ### RateLimiter (rate_limiter.py lines 14-121), per-host branch

A host's window is the deque of recorded request timestamps, oldest first. -/

/-- Lazy eviction loop of `RateLimiter.can_make_request` (rate_limiter.py lines
61-62): pop from the front while the front timestamp satisfies
`timestamp <= now - time_window`. -/
def evict (time_window now : ℚ) (reqs : List ℚ) : List ℚ :=
  reqs.dropWhile fun t => decide (t ≤ now - time_window)

/-- The boolean result of `RateLimiter.can_make_request` together with the
deque it leaves behind (rate_limiter.py lines 58-64): after eviction, request
is allowed iff the retained count is below `max_requests`. -/
def canMakeRequest (max_requests : ℕ) (time_window now : ℚ) (reqs : List ℚ) :
    Bool × List ℚ :=
  let kept := evict time_window now reqs
  (kept.length < max_requests, kept)

/-- `RateLimiter.wait_if_needed` for one host (rate_limiter.py lines 81-121),
with every `time.time()` read of one call modelled by the single value `now`
(the calls under scrutiny are back-to-back). Returns the wait amount and the
updated deque: if capacity is available the call records `now` and returns 0;
otherwise it computes `max(0, earliest + time_window - now)` from the oldest
retained entry, sleeps that long, and records `now + sleep_time`. -/
def waitIfNeeded (max_requests : ℕ) (time_window now : ℚ) (reqs : List ℚ) :
    ℚ × List ℚ :=
  let c := canMakeRequest max_requests time_window now reqs
  if c.1 then (0, c.2 ++ [now])
  else
    let sleep_time := match c.2.head? with
      | some earliest => max 0 (earliest + time_window - now)
      | none => 0
    (sleep_time, c.2 ++ [now + sleep_time])

/-! ### DelayManager (rate_limiter.py lines 222-276) -/

/-- `DelayManager.get_delay` (rate_limiter.py lines 241-254): the per-host
override when present (else `base_delay`) plus the drawn jitter value. The
random draw `random.uniform(-jitter, jitter)` is passed in as `draw`. -/
def getDelay (base_delay : ℚ) (host_delays : List (String × ℚ)) (host : String)
    (draw : ℚ) : ℚ :=
  ((host_delays.lookup host).getD base_delay) + draw

/-- The sleep performed by `DelayManager.apply_delay` (rate_limiter.py lines
267-276): `time.sleep(delay)` exactly when `delay > 0`, else no sleep. -/
def applySleep (delay : ℚ) : Option ℚ :=
  if delay > 0 then some delay else none

/-! ### DynamicThreadPool (concurrent_manager.py lines 27-191) -/

/-- Sizing-relevant state of `DynamicThreadPool`: the worker bounds, the
resource thresholds, the current worker count, and the size of the internal
`_task_queue`. -/
structure PoolState where
  min_workers : ℕ
  max_workers : ℕ
  cpu_threshold : ℚ
  memory_threshold : ℚ
  current_workers : ℕ
  queue_size : ℕ
  deriving DecidableEq, Repr

/-- The state of a freshly constructed `DynamicThreadPool`
(concurrent_manager.py lines 33-54): `_current_workers = min_workers` and the
internal `_task_queue` is created empty. -/
def initPool (min_workers max_workers : ℕ) (cpu_threshold memory_threshold : ℚ) :
    PoolState :=
  { min_workers := min_workers, max_workers := max_workers,
    cpu_threshold := cpu_threshold, memory_threshold := memory_threshold,
    current_workers := min_workers, queue_size := 0 }

/-- `DynamicThreadPool._adjust_workers` (concurrent_manager.py lines 109-125):
if CPU or memory exceeds its threshold and `current_workers > min_workers`,
shrink to `max(min_workers, current_workers - 2)`; else if both readings are
below 0.6 of their thresholds, the queue size exceeds `current_workers`, and
`current_workers < max_workers`, grow to `min(max_workers,
current_workers + 2)`; otherwise leave the count unchanged. -/
def adjustWorkers (st : PoolState) (cpu_percent memory_percent : ℚ) : PoolState :=
  if cpu_percent > st.cpu_threshold ∨ memory_percent > st.memory_threshold then
    if st.min_workers < st.current_workers then
      { st with current_workers := max st.min_workers (st.current_workers - 2) }
    else st
  else if cpu_percent < st.cpu_threshold * (6/10) ∧
          memory_percent < st.memory_threshold * (6/10) ∧
          st.current_workers < st.queue_size then
    if st.current_workers < st.max_workers then
      { st with current_workers := min st.max_workers (st.current_workers + 2) }
    else st
  else st

/-- A sequence of `_adjust_workers` invocations by the monitor thread, one per
sample `(cpu_percent, memory_percent, queue size observed at that moment)`:
between invocations the queue may hold anything, so each sample carries the
queue size in effect when the sizing step reads it. -/
def runAdjustments (st : PoolState) (samples : List (ℚ × ℚ × ℕ)) : PoolState :=
  samples.foldl
    (fun s p => adjustWorkers { s with queue_size := p.2.2 } p.1 p.2.1) st

/-- A sizing-relevant transition of the pool. `adjust` is one invocation of
`_adjust_workers` by the resource-monitor thread. `publicOp` covers each public
operation — `submit` (lines 127-142), `map` (lines 144-168),
`schedule_with_backoff` (lines 211-233) and `schedule_batch` (lines 235-266):
as the source shows, none of them touches `_task_queue` (referenced only at
lines 52, 83 and 121, never via `put`) or `_current_workers`, so each is the
identity on the sizing state. -/
inductive PoolStep : PoolState → PoolState → Prop
  | adjust (st : PoolState) (cpu_percent memory_percent : ℚ) :
      PoolStep st (adjustWorkers st cpu_percent memory_percent)
  | publicOp (st : PoolState) : PoolStep st st

/-- `DynamicThreadPool.map` (concurrent_manager.py lines 144-168): one future
per item; each future resolves to `some` result or, when the work unit raised,
contributes a logged failure and `None`. Results are appended in COMPLETION
order, given here by `order`, the list of item indices in the order
`as_completed` yields their futures. -/
def poolMap (outcomes : List (Option ℕ)) (order : List ℕ) : List (Option ℕ) :=
  order.map fun i => outcomes.getD i none

/-! ### TaskScheduler (concurrent_manager.py lines 194-266)

A unit of work is represented by its outcome: `some v` when the call returns
`v`, `none` when it raises. -/

/-- The retry loop of `TaskScheduler.schedule_with_backoff`
(concurrent_manager.py lines 223-233), from attempt number `attempt` with
`remaining` loop iterations left. Returns the list of sleeps performed (each
`backoff_factor * 2 ^ attempt`), the final outcome (`Except.error ()` models
the re-raise after `max_retries` is exhausted), and the number of attempts
made. -/
def backoffAux (outcomes : ℕ → Option ℕ) (backoff_factor : ℚ) (max_retries : ℕ) :
    ℕ → ℕ → List ℚ × Except Unit ℕ × ℕ
  | 0, _ => ([], Except.error (), 0)
  | remaining + 1, attempt =>
    match outcomes attempt with
    | some v => ([], Except.ok v, 1)
    | none =>
      if attempt = max_retries then ([], Except.error (), 1)
      else
        let rest := backoffAux outcomes backoff_factor max_retries remaining (attempt + 1)
        (backoff_factor * 2 ^ attempt :: rest.1, rest.2.1, rest.2.2 + 1)

/-- `TaskScheduler.schedule_with_backoff` (concurrent_manager.py lines
211-233): `for attempt in range(max_retries + 1)`, so the loop body runs at
most `max_retries + 1` times starting at attempt 0. -/
def scheduleWithBackoff (outcomes : ℕ → Option ℕ) (backoff_factor : ℚ)
    (max_retries : ℕ) : List ℚ × Except Unit ℕ × ℕ :=
  backoffAux outcomes backoff_factor max_retries (max_retries + 1) 0

/-- The wave decomposition performed by `TaskScheduler.schedule_batch`
(concurrent_manager.py line 250): `for i in range(0, len(tasks),
max_concurrent): batch = tasks[i:i + max_concurrent]`. -/
def waves (max_concurrent : ℕ) : List (Option ℕ) → List (List (Option ℕ))
  | [] => []
  | t :: ts =>
      (t :: ts.take (max_concurrent - 1)) :: waves max_concurrent (ts.drop (max_concurrent - 1))
  termination_by l => l.length
  decreasing_by simp only [List.length_cons, List.length_drop]; omega

/-- `TaskScheduler.schedule_batch` (concurrent_manager.py lines 235-266): when
`max_concurrent` is `none` it defaults to the pool's current worker count; the
tasks are processed wave by wave, and within a wave the loop iterates over
`batch_futures` in submission order, appending each future's result, or `None`
after logging when it raised. Each task is represented by its outcome. -/
def scheduleBatch (tasks : List (Option ℕ)) (max_concurrent : Option ℕ)
    (worker_count : ℕ) : List (Option ℕ) :=
  ((waves (max_concurrent.getD worker_count) tasks).map fun wave =>
    wave.map fun outcome => outcome).flatten

/-! ## Theorems -/

/-- C1, counterexample: at a rollover with zero recorded successes and zero
recorded failures, the code computes `success_rate = 0 / max(1, 0) = 0.0`
(not 1.0 as the claim states), so with `current_rate = 10`, `min_rate = 1`,
`max_rate = 50` the rate is lowered to 9, while treating the success rate as
1.0 — as the spec describes — would raise it to 11. -/
theorem c1_zero_window_counterexample :
    adjustedRate 0 0 10 1 50 = 9 ∧ specAdjustedRate 0 0 10 1 50 = 11 ∧
      (9 : ℤ) ≠ 11 := by
  refine ⟨?_, ?_, by decide⟩ <;> norm_num [adjustedRate, specAdjustedRate, pyInt]

/-- C1, amended: at a rollover the success rate is computed as
`success_count / max(1, success_count + failure_count)`; whenever at least one
result was recorded in the window this coincides with the spec's formula
`success_count / (success_count + failure_count)`, but a window with zero
recorded successes and zero recorded failures is treated as success rate 0.0,
so `current_rate` would be lowered 10% (clamped to `min_rate`), not raised. -/
theorem c1_success_rate_formula :
    (∀ (s f : ℕ) (rate mn mx : ℤ), 1 ≤ s + f →
      adjustedRate s f rate mn mx = specAdjustedRate s f rate mn mx) ∧
    (∀ rate mn mx : ℤ,
      adjustedRate 0 0 rate mn mx = max mn (pyInt ((rate : ℚ) * (9/10)))) := by
  constructor
  · intro s f rate mn mx h
    have hmax : max 1 (s + f) = s + f := max_eq_right h
    have hne : s + f ≠ 0 := by omega
    simp only [adjustedRate, specAdjustedRate, hmax, if_neg hne]
  · intro rate mn mx
    have h0 : ((0 : ℕ) : ℚ) / ((max 1 (0 + 0) : ℕ) : ℚ) = 0 := by norm_num
    simp only [adjustedRate, h0]
    norm_num

/-- Witness for `c1_success_rate_formula` at the concrete window of Scenario B
(95 successes, 5 failures). -/
theorem c1_success_rate_formula_witness :
    1 ≤ 95 + 5 ∧ adjustedRate 95 5 10 1 50 = specAdjustedRate 95 5 10 1 50 :=
  ⟨by decide, c1_success_rate_formula.1 95 5 10 1 50 (by decide)⟩

/-- A `report_result` call that does not cross the window boundary only
increments the matching counter. -/
theorem reportResult_no_roll (st : AdaptiveState) (s : Bool) (now : ℚ)
    (h : now - st.window_start < st.window_size) :
    reportResult st s now =
      if s then { st with success_count := st.success_count + 1 }
      else { st with failure_count := st.failure_count + 1 } := by
  cases s <;> simp [reportResult, not_le.mpr h]

/-- Splitting a report sequence into two runs. -/
theorem runReports_append (st : AdaptiveState) (l1 l2 : List (Bool × ℚ)) :
    runReports st (l1 ++ l2) = runReports (runReports st l1) l2 :=
  List.foldl_append _ _ _ _

/-- A block of identical in-window reports accumulates in one counter. -/
theorem runReports_replicate (n : ℕ) (st : AdaptiveState) (s : Bool) (t : ℚ)
    (h : t - st.window_start < st.window_size) :
    runReports st (List.replicate n (s, t)) =
      if s then { st with success_count := st.success_count + n }
      else { st with failure_count := st.failure_count + n } := by
  induction n generalizing st with
  | zero => cases s <;> simp [runReports]
  | succ n ih =>
    rw [List.replicate_succ]
    have step : runReports st ((s, t) :: List.replicate n (s, t)) =
        runReports (reportResult st s t) (List.replicate n (s, t)) := rfl
    rw [step, reportResult_no_roll st s t h]
    cases s
    · rw [if_neg (by simp)]
      rw [ih _ (by simpa using h)]
      simp [Nat.add_assoc, Nat.add_comm 1 n]
    · rw [if_pos (by simp)]
      rw [ih _ (by simpa using h)]
      simp [Nat.add_assoc, Nat.add_comm 1 n]

/-- Scenario B window: 95 successes and 5 failures raise rate 10 to 11. -/
theorem adjustedRate_95_5 : adjustedRate 95 5 10 1 50 = 11 := by
  norm_num [adjustedRate, pyInt]

/-- Scenario C window: 5 successes and 15 failures lower rate 10 to 9. -/
theorem adjustedRate_5_15 : adjustedRate 5 15 10 1 50 = 9 := by
  norm_num [adjustedRate, pyInt]

/-- C2: starting from an `AdaptiveRateLimiter` state with `current_rate = 10`,
`min_rate = 1`, `max_rate = 50`, `window_size = 10`, `window_start = 0` and
two existing per-host limiters at `max_requests = 10`: reporting 95 successes
and 5 failures inside the window (the last report at the rollover time 10)
yields `current_rate = 11`, both counters reset to 0, `window_start = 10`, and
both limiters retuned to 11; reporting 5 successes and 15 failures instead
yields `current_rate = 9` with the same resets and both limiters at 9. -/
theorem c2_rollover_scenarios :
    runReports
      { min_rate := 1, max_rate := 50, current_rate := 10, success_count := 0,
        failure_count := 0, window_start := 0, window_size := 10,
        limiters := [10, 10] }
      (List.replicate 95 (true, 1) ++ List.replicate 4 (false, 1) ++ [(false, 10)]) =
      { min_rate := 1, max_rate := 50, current_rate := 11, success_count := 0,
        failure_count := 0, window_start := 10, window_size := 10,
        limiters := [11, 11] } ∧
    runReports
      { min_rate := 1, max_rate := 50, current_rate := 10, success_count := 0,
        failure_count := 0, window_start := 0, window_size := 10,
        limiters := [10, 10] }
      (List.replicate 5 (true, 1) ++ List.replicate 14 (false, 1) ++ [(false, 10)]) =
      { min_rate := 1, max_rate := 50, current_rate := 9, success_count := 0,
        failure_count := 0, window_start := 10, window_size := 10,
        limiters := [9, 9] } := by
  constructor
  · have h1 : runReports
        { min_rate := 1, max_rate := 50, current_rate := 10, success_count := 0,
          failure_count := 0, window_start := 0, window_size := 10,
          limiters := [10, 10] } (List.replicate 95 (true, 1)) =
        { min_rate := 1, max_rate := 50, current_rate := 10, success_count := 95,
          failure_count := 0, window_start := 0, window_size := 10,
          limiters := [10, 10] } := by
      rw [runReports_replicate _ _ _ _ (by norm_num)]
      norm_num
    have h2 : runReports
        { min_rate := 1, max_rate := 50, current_rate := 10, success_count := 95,
          failure_count := 0, window_start := 0, window_size := 10,
          limiters := [10, 10] } (List.replicate 4 (false, 1)) =
        { min_rate := 1, max_rate := 50, current_rate := 10, success_count := 95,
          failure_count := 4, window_start := 0, window_size := 10,
          limiters := [10, 10] } := by
      rw [runReports_replicate _ _ _ _ (by norm_num)]
      norm_num
    have h3 : reportResult
        { min_rate := 1, max_rate := 50, current_rate := 10, success_count := 95,
          failure_count := 4, window_start := 0, window_size := 10,
          limiters := [10, 10] } false 10 =
        { min_rate := 1, max_rate := 50, current_rate := 11, success_count := 0,
          failure_count := 0, window_start := 10, window_size := 10,
          limiters := [11, 11] } := by
      norm_num [reportResult, adjustedRate_95_5]
    rw [runReports_append, runReports_append, h1, h2]
    exact h3
  · have h1 : runReports
        { min_rate := 1, max_rate := 50, current_rate := 10, success_count := 0,
          failure_count := 0, window_start := 0, window_size := 10,
          limiters := [10, 10] } (List.replicate 5 (true, 1)) =
        { min_rate := 1, max_rate := 50, current_rate := 10, success_count := 5,
          failure_count := 0, window_start := 0, window_size := 10,
          limiters := [10, 10] } := by
      rw [runReports_replicate _ _ _ _ (by norm_num)]
      norm_num
    have h2 : runReports
        { min_rate := 1, max_rate := 50, current_rate := 10, success_count := 5,
          failure_count := 0, window_start := 0, window_size := 10,
          limiters := [10, 10] } (List.replicate 14 (false, 1)) =
        { min_rate := 1, max_rate := 50, current_rate := 10, success_count := 5,
          failure_count := 14, window_start := 0, window_size := 10,
          limiters := [10, 10] } := by
      rw [runReports_replicate _ _ _ _ (by norm_num)]
      norm_num
    have h3 : reportResult
        { min_rate := 1, max_rate := 50, current_rate := 10, success_count := 5,
          failure_count := 14, window_start := 0, window_size := 10,
          limiters := [10, 10] } false 10 =
        { min_rate := 1, max_rate := 50, current_rate := 9, success_count := 0,
          failure_count := 0, window_start := 10, window_size := 10,
          limiters := [9, 9] } := by
      norm_num [reportResult, adjustedRate_5_15]
    rw [runReports_append, runReports_append, h1, h2]
    exact h3

/-- Reading every index of a list in order reproduces the list. -/
theorem map_getD_range (l : List (Option ℕ)) :
    (List.range l.length).map (fun i => l.getD i none) = l := by
  induction l with
  | nil => simp
  | cons x xs ih =>
    rw [List.length_cons, List.range_succ_eq_map, List.map_cons, List.map_map]
    have hc : ((fun i => (x :: xs).getD i none) ∘ Nat.succ) =
        fun i => xs.getD i none := funext fun i => List.getD_cons_succ
    rw [hc, ih]
    rfl

/-- C3, counterexample: `DynamicThreadPool.map` appends results in the order
`as_completed` yields the futures. If the failing work unit for item 3
(index 2) completes first — completion order [2, 0, 1, 3, 4] — the returned
list is `[None, r0, r1, r3, r4]`: the slot at index 2 holds item 1's result,
not the null marker, contradicting the claim. -/
theorem c3_completion_order_counterexample :
    poolMap [some 10, some 20, none, some 40, some 50] [2, 0, 1, 3, 4] =
      [none, some 10, some 20, some 40, some 50] ∧
    [none, some 10, some 20, some 40, some 50].getD 2 none ≠ none := by
  constructor <;> decide

/-- C3, amended: for `map` over 5 items where item 3's work unit raises and
the others succeed, whatever completion order `as_completed` produces, the
returned list has length 5, contains the null marker exactly once, and is a
permutation of the five per-item outcomes — but slots follow completion
order, so index 2 need not carry the null marker nor slot `i` item `i`'s
result. -/
theorem c3_map_completion_order (a b c d : ℕ) (order : List ℕ)
    (hp : order.Perm (List.range 5)) :
    (poolMap [some a, some b, none, some c, some d] order).Perm
      [some a, some b, none, some c, some d] ∧
    (poolMap [some a, some b, none, some c, some d] order).length = 5 ∧
    (poolMap [some a, some b, none, some c, some d] order).count none = 1 := by
  have key : (poolMap [some a, some b, none, some c, some d] order).Perm
      [some a, some b, none, some c, some d] := by
    have hm := hp.map (fun i => [some a, some b, none, some c, some d].getD i none)
    have he : (List.range 5).map
        (fun i => [some a, some b, none, some c, some d].getD i none) =
        [some a, some b, none, some c, some d] :=
      map_getD_range [some a, some b, none, some c, some d]
    rw [he] at hm
    exact hm
  refine ⟨key, ?_, ?_⟩
  · rw [key.length_eq]
    rfl
  · exact (key.countP_eq (fun o => o == none)).trans rfl

/-- Witness for `c3_map_completion_order` at items 10, 20, (raises), 40, 50 and
completion order [2, 0, 1, 3, 4]. -/
theorem c3_map_completion_order_witness :
    (poolMap [some 10, some 20, none, some 40, some 50] [2, 0, 1, 3, 4]).Perm
      [some 10, some 20, none, some 40, some 50] ∧
    (poolMap [some 10, some 20, none, some 40, some 50] [2, 0, 1, 3, 4]).length = 5 ∧
    (poolMap [some 10, some 20, none, some 40, some 50] [2, 0, 1, 3, 4]).count none = 1 :=
  c3_map_completion_order 10 20 40 50 [2, 0, 1, 3, 4] (by decide)

/-- C4, counterexample: with the module defaults `base_delay = 0.0` (no
override for the host) and `jitter = 0.1`, the jitter draw `-0.05` lies in
`[-jitter, jitter]`, yet `get_delay` returns `-0.05 < 0`: the sum is not
clamped anywhere in the code. -/
theorem c4_negative_delay_counterexample :
    getDelay 0 [] "h" (-(1/20)) = -(1/20) ∧
    (-(1/10) : ℚ) ≤ -(1/20) ∧ ((-(1/20)) : ℚ) ≤ 1/10 ∧
    getDelay 0 [] "h" (-(1/20)) < 0 := by
  refine ⟨by simp [getDelay], by norm_num, by norm_num, ?_⟩
  simp only [getDelay, List.lookup_nil, Option.getD_none]
  norm_num

/-- C4, amended: the effective delay is the per-host override if one was set
(else `base_delay`) plus a symmetric uniform jitter draw in
`[-jitter, +jitter]`, with NO clamping: `get_delay` can return a negative
value whenever the jitter bound exceeds the effective base (counterexample
above), and is nonnegative whenever the effective base is at least the jitter
bound; `apply_delay` sleeps only when the computed delay is strictly positive,
so no `apply_delay` call ever sleeps a negative duration. -/
theorem c4_delay_sign :
    (∀ delay t : ℚ, applySleep delay = some t → 0 < t) ∧
    (∀ (base jitter draw : ℚ) (hd : List (String × ℚ)) (host : String),
      -jitter ≤ draw → jitter ≤ (hd.lookup host).getD base →
      0 ≤ getDelay base hd host draw) := by
  constructor
  · intro delay t h
    unfold applySleep at h
    split at h
    · cases h
      assumption
    · cases h
  · intro base jitter draw hd host h1 h2
    unfold getDelay
    linarith

/-- Witness for `c4_delay_sign`: a one-second sleep is positive, and with an
effective base of 0.1 and jitter bound 0.1 the delay is nonnegative. -/
theorem c4_delay_sign_witness :
    (0 : ℚ) < 1 ∧ 0 ≤ getDelay (1/10) [] "h" (-(1/10)) :=
  ⟨c4_delay_sign.1 1 1 rfl,
   c4_delay_sign.2 (1/10) (1/10) (-(1/10)) [] "h" (le_refl _) (le_refl _)⟩

/-- One `_adjust_workers` call on a state satisfying the worker-bound
invariant: the bounds and queue are untouched, the invariant is kept, and the
worker count moves by at most 2 in either direction. -/
theorem adjustWorkers_bounds (st : PoolState) (cpu mem : ℚ)
    (h1 : st.min_workers ≤ st.current_workers)
    (h2 : st.current_workers ≤ st.max_workers) :
    (adjustWorkers st cpu mem).min_workers = st.min_workers ∧
    (adjustWorkers st cpu mem).max_workers = st.max_workers ∧
    st.min_workers ≤ (adjustWorkers st cpu mem).current_workers ∧
    (adjustWorkers st cpu mem).current_workers ≤ st.max_workers ∧
    (adjustWorkers st cpu mem).current_workers ≤ st.current_workers + 2 ∧
    st.current_workers ≤ (adjustWorkers st cpu mem).current_workers + 2 := by
  unfold adjustWorkers
  split_ifs <;> refine ⟨rfl, rfl, ?_, ?_, ?_, ?_⟩ <;> (try simp) <;> omega

/-- The worker-bound invariant survives any sequence of adjustments, with the
bounds themselves unchanged throughout. -/
theorem runAdjustments_bounds (samples : List (ℚ × ℚ × ℕ)) (st : PoolState)
    (h1 : st.min_workers ≤ st.current_workers)
    (h2 : st.current_workers ≤ st.max_workers) :
    (runAdjustments st samples).min_workers = st.min_workers ∧
    (runAdjustments st samples).max_workers = st.max_workers ∧
    (runAdjustments st samples).min_workers ≤
      (runAdjustments st samples).current_workers ∧
    (runAdjustments st samples).current_workers ≤
      (runAdjustments st samples).max_workers := by
  induction samples generalizing st with
  | nil => exact ⟨rfl, rfl, h1, h2⟩
  | cons p ps ih =>
    have hb := adjustWorkers_bounds { st with queue_size := p.2.2 } p.1 p.2.1 h1 h2
    simp at hb
    have hstep : runAdjustments st (p :: ps) =
        runAdjustments (adjustWorkers { st with queue_size := p.2.2 } p.1 p.2.1) ps :=
      rfl
    rw [hstep]
    have htail := ih (adjustWorkers { st with queue_size := p.2.2 } p.1 p.2.1)
      (by omega) (by omega)
    omega

/-- C5: a pool constructed with `min_workers ≤ max_workers` starts with
`current_workers = min_workers`, so the invariant `min_workers ≤
current_workers ≤ max_workers` holds initially; every `_adjust_workers` call —
for arbitrary cpu_percent, memory_percent and queue contents — leaves the
bounds unchanged, keeps the invariant, and moves `current_workers` by at most
2 in either direction; and along every sequence of adjustments from a fresh
pool the invariant holds at every intermediate state. -/
theorem c5_worker_bounds_invariant :
    (∀ (mn mx : ℕ) (ct mt : ℚ), mn ≤ mx →
      (initPool mn mx ct mt).min_workers ≤ (initPool mn mx ct mt).current_workers ∧
      (initPool mn mx ct mt).current_workers ≤ (initPool mn mx ct mt).max_workers) ∧
    (∀ (st : PoolState) (cpu mem : ℚ),
      st.min_workers ≤ st.current_workers → st.current_workers ≤ st.max_workers →
      (adjustWorkers st cpu mem).min_workers = st.min_workers ∧
      (adjustWorkers st cpu mem).max_workers = st.max_workers ∧
      st.min_workers ≤ (adjustWorkers st cpu mem).current_workers ∧
      (adjustWorkers st cpu mem).current_workers ≤ st.max_workers ∧
      (adjustWorkers st cpu mem).current_workers ≤ st.current_workers + 2 ∧
      st.current_workers ≤ (adjustWorkers st cpu mem).current_workers + 2) ∧
    (∀ (mn mx : ℕ) (ct mt : ℚ) (samples : List (ℚ × ℚ × ℕ)), mn ≤ mx →
      mn ≤ (runAdjustments (initPool mn mx ct mt) samples).current_workers ∧
      (runAdjustments (initPool mn mx ct mt) samples).current_workers ≤ mx) := by
  refine ⟨?_, ?_, ?_⟩
  · intro mn mx ct mt h
    exact ⟨le_refl _, h⟩
  · intro st cpu mem h1 h2
    exact adjustWorkers_bounds st cpu mem h1 h2
  · intro mn mx ct mt samples h
    have hb := runAdjustments_bounds samples (initPool mn mx ct mt) (le_refl _) h
    revert hb
    simp only [initPool]
    omega

/-- Witness for `c5_worker_bounds_invariant` at a pool with bounds 2..20 and a
high-CPU sample (90, 40). -/
theorem c5_worker_bounds_invariant_witness :
    ((initPool 2 20 80 80).min_workers ≤ (initPool 2 20 80 80).current_workers ∧
     (initPool 2 20 80 80).current_workers ≤ (initPool 2 20 80 80).max_workers) ∧
    ((adjustWorkers (initPool 2 20 80 80) 90 40).min_workers =
        (initPool 2 20 80 80).min_workers ∧
     (adjustWorkers (initPool 2 20 80 80) 90 40).max_workers =
        (initPool 2 20 80 80).max_workers ∧
     (initPool 2 20 80 80).min_workers ≤
        (adjustWorkers (initPool 2 20 80 80) 90 40).current_workers ∧
     (adjustWorkers (initPool 2 20 80 80) 90 40).current_workers ≤
        (initPool 2 20 80 80).max_workers ∧
     (adjustWorkers (initPool 2 20 80 80) 90 40).current_workers ≤
        (initPool 2 20 80 80).current_workers + 2 ∧
     (initPool 2 20 80 80).current_workers ≤
        (adjustWorkers (initPool 2 20 80 80) 90 40).current_workers + 2) ∧
    (2 ≤ (runAdjustments (initPool 2 20 80 80) [(90, 40, 0)]).current_workers ∧
     (runAdjustments (initPool 2 20 80 80) [(90, 40, 0)]).current_workers ≤ 20) :=
  ⟨c5_worker_bounds_invariant.1 2 20 80 80 (by decide),
   c5_worker_bounds_invariant.2.1 (initPool 2 20 80 80) 90 40 (by decide) (by decide),
   c5_worker_bounds_invariant.2.2 2 20 80 80 [(90, 40, 0)] (by decide)⟩

/-- C6: for `schedule_with_backoff` with `max_retries = 3` and
`backoff_factor = 1.0`: a work unit failing on every attempt is tried exactly
4 times with sleeps of 1, 2 and 4 seconds after the failed attempts 0, 1 and
2, and the fourth failure is re-raised with no further sleep; a work unit
whose first success is at attempt `k ≤ 3` returns that result immediately
after `k + 1` attempts, having slept `1·2^j` for each failed attempt
`j < k`. -/
theorem c6_backoff_behavior :
    scheduleWithBackoff (fun _ => none) 1 3 = ([1, 2, 4], Except.error (), 4) ∧
    (∀ (f : ℕ → Option ℕ) (k v : ℕ), k ≤ 3 → (∀ j, j < k → f j = none) →
      f k = some v →
      scheduleWithBackoff f 1 3 =
        ((List.range k).map fun j => (1 : ℚ) * 2 ^ j, Except.ok v, k + 1)) := by
  constructor
  · norm_num [scheduleWithBackoff, backoffAux]
  · intro f k v hk h0 hv
    interval_cases k
    · simp [scheduleWithBackoff, backoffAux, hv]
    · simp only [scheduleWithBackoff, backoffAux, h0 0 (by omega), hv]
      norm_num [List.range_succ]
    · simp only [scheduleWithBackoff, backoffAux, h0 0 (by omega),
        h0 1 (by omega), hv]
      norm_num [List.range_succ]
    · simp only [scheduleWithBackoff, backoffAux, h0 0 (by omega),
        h0 1 (by omega), h0 2 (by omega), hv]
      norm_num [List.range_succ]

/-- Witness for `c6_backoff_behavior`: a work unit succeeding on attempt 2
returns 7 after three attempts and sleeps 1 and 2 seconds. -/
theorem c6_backoff_behavior_witness :
    scheduleWithBackoff (fun n => if n = 2 then some 7 else none) 1 3 =
      ((List.range 2).map fun j => (1 : ℚ) * 2 ^ j, Except.ok 7, 2 + 1) :=
  c6_backoff_behavior.2 (fun n => if n = 2 then some 7 else none) 2 7
    (by decide) (by decide) (by decide)

/-- C7: four back-to-back `wait_if_needed` calls for one host on a
`RateLimiter(max_requests=3, time_window=1.0)`, at nondecreasing times
`t0 ≤ t1 ≤ t2 ≤ t3` with `t3 < t0 + 1` (no delay between calls): the first
three find capacity, record their timestamps and return 0.0; the fourth finds
the window full and returns `oldest + time_window − now = t0 + 1 − t3`,
which the `max` with 0 leaves unchanged (it is nonnegative), and records the
timestamp `now + wait = t3 + (t0 + 1 − t3)`. -/
theorem c7_wait_if_needed_scenario (t0 t1 t2 t3 : ℚ) (_h01 : t0 ≤ t1)
    (h12 : t1 ≤ t2) (h23 : t2 ≤ t3) (hw : t3 < t0 + 1) :
    waitIfNeeded 3 1 t0 [] = (0, [t0]) ∧
    waitIfNeeded 3 1 t1 [t0] = (0, [t0, t1]) ∧
    waitIfNeeded 3 1 t2 [t0, t1] = (0, [t0, t1, t2]) ∧
    waitIfNeeded 3 1 t3 [t0, t1, t2] =
      (t0 + 1 - t3, [t0, t1, t2, t3 + (t0 + 1 - t3)]) ∧
    0 ≤ t0 + 1 - t3 := by
  have e1 : decide (t0 ≤ t1 - 1) = false := decide_eq_false (by linarith)
  have e2 : decide (t0 ≤ t2 - 1) = false := decide_eq_false (by linarith)
  have e3 : decide (t0 ≤ t3 - 1) = false := decide_eq_false (by linarith)
  have hmax : max 0 (t0 + 1 - t3) = t0 + 1 - t3 := max_eq_right (by linarith)
  refine ⟨?_, ?_, ?_, ?_, by linarith⟩
  · simp [waitIfNeeded, canMakeRequest, evict]
  · simp [waitIfNeeded, canMakeRequest, evict, e1]
  · simp [waitIfNeeded, canMakeRequest, evict, e2]
  · simp [waitIfNeeded, canMakeRequest, evict, e3, hmax]

/-- Witness for `c7_wait_if_needed_scenario` with all four calls at time 0:
the fourth call waits the full second. -/
theorem c7_wait_if_needed_scenario_witness :
    waitIfNeeded 3 1 0 [] = (0, [(0 : ℚ)]) ∧
    waitIfNeeded 3 1 0 [0] = (0, [(0 : ℚ), 0]) ∧
    waitIfNeeded 3 1 0 [0, 0] = (0, [(0 : ℚ), 0, 0]) ∧
    waitIfNeeded 3 1 0 [0, 0, 0] =
      ((0 : ℚ) + 1 - 0, [(0 : ℚ), 0, 0, 0 + (0 + 1 - 0)]) ∧
    (0 : ℚ) ≤ 0 + 1 - 0 :=
  c7_wait_if_needed_scenario 0 0 0 0 (le_refl 0) (le_refl 0) (le_refl 0)
    (by norm_num)

/-- Dropping a prefix by a predicate is idempotent. -/
theorem dropWhile_idem {α : Type} (p : α → Bool) (l : List α) :
    (l.dropWhile p).dropWhile p = l.dropWhile p := by
  induction l with
  | nil => rfl
  | cons x xs ih =>
    by_cases h : p x
    · rw [List.dropWhile_cons_of_pos h, ih]
    · rw [List.dropWhile_cons_of_neg h, List.dropWhile_cons_of_neg h]

/-- On a sorted deque, the lazy front eviction of `can_make_request` retains
exactly the timestamps a brute-force filter of `timestamp > now - time_window`
would retain. -/
theorem evict_eq_filter (time_window now : ℚ) (reqs : List ℚ)
    (hs : List.Sorted (· ≤ ·) reqs) :
    evict time_window now reqs =
      reqs.filter fun t => decide (now - time_window < t) := by
  induction reqs with
  | nil => rfl
  | cons x xs ih =>
    rw [List.sorted_cons] at hs
    by_cases h : x ≤ now - time_window
    · rw [evict, List.dropWhile_cons_of_pos (by simpa using h), List.filter_cons,
        if_neg (by simpa using not_lt.mpr h)]
      exact ih hs.2
    · rw [evict, List.dropWhile_cons_of_neg (by simpa using h), List.filter_cons,
        if_pos (by simpa using not_le.mp h)]
      have hrest : xs.filter (fun t => decide (now - time_window < t)) = xs :=
        List.filter_eq_self.mpr fun y hy =>
          decide_eq_true (lt_of_lt_of_le (not_le.mp h) (hs.1 y hy))
      rw [hrest]

/-- C8: `can_make_request` is idempotent: a second call without an intervening
`record_request` sees the same deque and returns the same boolean, so repeated
calls never change the scope's remaining capacity; every timestamp the lazy
front eviction removes satisfies `timestamp ≤ now - time_window`, so a
brute-force filter of `timestamp > now - time_window` would discard it too;
and on a sorted deque — every deque reachable by sequential use, since
timestamps are recorded in nondecreasing order — eviction retains exactly what
the brute-force filter retains. -/
theorem c8_can_make_request_idempotent (max_requests : ℕ)
    (time_window now : ℚ) (reqs : List ℚ) :
    canMakeRequest max_requests time_window now
        (canMakeRequest max_requests time_window now reqs).2 =
      canMakeRequest max_requests time_window now reqs ∧
    (∀ t ∈ reqs, t ∉ evict time_window now reqs → t ≤ now - time_window) ∧
    (List.Sorted (· ≤ ·) reqs →
      evict time_window now reqs =
        reqs.filter fun t => decide (now - time_window < t)) := by
  refine ⟨?_, ?_, evict_eq_filter time_window now reqs⟩
  · unfold canMakeRequest
    rw [evict, evict, dropWhile_idem]
  · intro t ht hnot
    have hsplit := List.takeWhile_append_dropWhile
      (p := fun t => decide (t ≤ now - time_window)) (l := reqs)
    rw [← hsplit] at ht
    rcases List.mem_append.mp ht with hin | hin
    · exact of_decide_eq_true
        (List.mem_takeWhile_imp (p := fun t => decide (t ≤ now - time_window))
          (l := reqs) hin)
    · exact absurd hin hnot

/-- Witness for `c8_can_make_request_idempotent` on the sorted deque [0, 5]
with `max_requests = 3`, `time_window = 1`, `now = 5`: the evicted timestamp 0
is out of the window, and eviction agrees with the brute-force filter. -/
theorem c8_can_make_request_idempotent_witness :
    canMakeRequest 3 1 5 (canMakeRequest 3 1 5 [(0 : ℚ), 5]).2 =
      canMakeRequest 3 1 5 [(0 : ℚ), 5] ∧
    (0 : ℚ) ≤ 5 - 1 ∧
    evict 1 5 [(0 : ℚ), 5] =
      [(0 : ℚ), 5].filter fun t => decide ((5 : ℚ) - 1 < t) :=
  ⟨(c8_can_make_request_idempotent 3 1 5 [0, 5]).1,
   (c8_can_make_request_idempotent 3 1 5 [0, 5]).2.1 0 (by norm_num)
     (by norm_num [evict, List.dropWhile]),
   (c8_can_make_request_idempotent 3 1 5 [0, 5]).2.2
     (by norm_num [List.sorted_cons])⟩

/-- Concatenating the waves reproduces the task list (proved by strong
induction on a length bound). -/
theorem waves_flatten_le (mc : ℕ) :
    ∀ (n : ℕ) (l : List (Option ℕ)), l.length ≤ n → (waves mc l).flatten = l := by
  intro n
  induction n with
  | zero =>
    intro l hl
    have : l = [] := List.length_eq_zero.mp (Nat.le_zero.mp hl)
    subst this
    simp [waves]
  | succ n ih =>
    intro l hl
    cases l with
    | nil => simp [waves]
    | cons x xs =>
      simp only [waves, List.flatten_cons]
      rw [ih (xs.drop (mc - 1)) (by simp at hl ⊢; omega), List.cons_append,
        List.take_append_drop]

/-- Every wave is nonempty and no larger than the wave size. -/
theorem waves_sizes (mc : ℕ) (hmc : 0 < mc) :
    ∀ (n : ℕ) (l : List (Option ℕ)), l.length ≤ n →
      ∀ w ∈ waves mc l, w.length ≤ mc ∧ w ≠ [] := by
  intro n
  induction n with
  | zero =>
    intro l hl
    have : l = [] := List.length_eq_zero.mp (Nat.le_zero.mp hl)
    subst this
    intro w hw
    simp [waves] at hw
  | succ n ih =>
    intro l hl w hw
    cases l with
    | nil => simp [waves] at hw
    | cons x xs =>
      simp only [waves, List.mem_cons] at hw
      rcases hw with rfl | hw
      · refine ⟨?_, by simp⟩
        simp only [List.length_cons]
        have := List.length_take_le (mc - 1) xs
        omega
      · exact ih (xs.drop (mc - 1)) (by simp at hl ⊢; omega) w hw

/-- C9: `schedule_batch` over any task list with any positive
`max_concurrent`: the result list is exactly the per-task outcome list — one
slot per task, slot `i` the result of task `i`, a raising task contributing
`None` at its own index without aborting the rest — because each wave's
results are appended by iterating its futures in submission order; the tasks
are split into consecutive waves, each nonempty and of at most
`max_concurrent` tasks, whose concatenation in order is the original list;
and an unspecified `max_concurrent` defaults to the pool's current worker
count. -/
theorem c9_schedule_batch :
    (∀ (tasks : List (Option ℕ)) (mc wc : ℕ), 0 < mc →
      scheduleBatch tasks (some mc) wc = tasks) ∧
    (∀ (tasks : List (Option ℕ)) (wc : ℕ),
      scheduleBatch tasks none wc = scheduleBatch tasks (some wc) wc) ∧
    (∀ (tasks : List (Option ℕ)) (mc : ℕ), 0 < mc →
      (waves mc tasks).flatten = tasks ∧
      ∀ w ∈ waves mc tasks, w.length ≤ mc ∧ w ≠ []) := by
  have hflat : ∀ (mc : ℕ) (tasks : List (Option ℕ)),
      (waves mc tasks).flatten = tasks :=
    fun mc tasks => waves_flatten_le mc tasks.length tasks (le_refl _)
  refine ⟨?_, ?_, ?_⟩
  · intro tasks mc wc _
    unfold scheduleBatch
    have hmapid : (waves mc tasks).map (fun wave => wave.map fun outcome => outcome) =
        waves mc tasks := by
      simp
    rw [Option.getD_some, hmapid]
    exact hflat mc tasks
  · intro tasks wc
    rfl
  · intro tasks mc hmc
    exact ⟨hflat mc tasks,
      waves_sizes mc hmc tasks.length tasks (le_refl _)⟩

/-- Witness for `c9_schedule_batch`: three tasks, the second raising, in waves
of 2 with a 7-worker pool. -/
theorem c9_schedule_batch_witness :
    scheduleBatch [some 1, none, some 3] (some 2) 7 = [some 1, none, some 3] ∧
    scheduleBatch [some 1, none, some 3] none 2 =
      scheduleBatch [some 1, none, some 3] (some 2) 2 ∧
    ((waves 2 [some 1, none, some 3]).flatten = [some 1, none, some 3] ∧
      ∀ w ∈ waves 2 [some 1, none, some 3], w.length ≤ 2 ∧ w ≠ []) :=
  ⟨c9_schedule_batch.1 [some 1, none, some 3] 2 7 (by decide),
   c9_schedule_batch.2.1 [some 1, none, some 3] 2,
   c9_schedule_batch.2.2 [some 1, none, some 3] 2 (by decide)⟩

/-- A pool whose queue is empty and whose worker count sits at the floor is a
fixed point of the sizing step: the shrink branch requires
`min_workers < current_workers` and the grow branch requires
`queue_size > current_workers`. -/
theorem adjustWorkers_fixed (st : PoolState) (hq : st.queue_size = 0)
    (hc : st.current_workers = st.min_workers) (cpu mem : ℚ) :
    adjustWorkers st cpu mem = st := by
  unfold adjustWorkers
  split_ifs <;> first | rfl | omega

/-- The sizing step never touches the queue or the bounds. -/
theorem adjustWorkers_frame (st : PoolState) (cpu mem : ℚ) :
    (adjustWorkers st cpu mem).queue_size = st.queue_size ∧
    (adjustWorkers st cpu mem).min_workers = st.min_workers ∧
    (adjustWorkers st cpu mem).max_workers = st.max_workers := by
  unfold adjustWorkers
  split_ifs <;> exact ⟨rfl, rfl, rfl⟩

/-- C10: no public operation of `DynamicThreadPool` or `TaskScheduler` ever
enqueues into `_task_queue` (each is the identity on the sizing state), so in
every state reachable from a freshly constructed pool the queue size is 0;
consequently the grow branch of `_adjust_workers` — which requires
`queue_size > current_workers` — can never fire, and `current_workers` stays
exactly at its initial value `min_workers` forever. -/
theorem c10_queue_never_grows (mn mx : ℕ) (ct mt : ℚ) (st : PoolState)
    (h : Relation.ReflTransGen PoolStep (initPool mn mx ct mt) st) :
    st.queue_size = 0 ∧ st.current_workers = mn ∧ st.min_workers = mn ∧
    ¬ st.current_workers < st.queue_size := by
  induction h with
  | refl => exact ⟨rfl, rfl, rfl, by simp [initPool]⟩
  | tail hab hbc ih =>
    rename_i b c
    rcases ih with ⟨ihq, ihc, ihm, -⟩
    cases hbc with
    | adjust cpu mem =>
      rw [adjustWorkers_fixed b ihq (by omega) cpu mem]
      exact ⟨ihq, ihc, ihm, by omega⟩
    | publicOp =>
      exact ⟨ihq, ihc, ihm, by omega⟩

/-- Witness for `c10_queue_never_grows`: after one monitor adjustment of a
freshly constructed pool with bounds 2..15 under a high-CPU sample, the queue
is still empty and the worker count is still 2. -/
theorem c10_queue_never_grows_witness :
    (adjustWorkers (initPool 2 15 85 85) 90 40).queue_size = 0 ∧
    (adjustWorkers (initPool 2 15 85 85) 90 40).current_workers = 2 ∧
    (adjustWorkers (initPool 2 15 85 85) 90 40).min_workers = 2 ∧
    ¬ (adjustWorkers (initPool 2 15 85 85) 90 40).current_workers <
        (adjustWorkers (initPool 2 15 85 85) 90 40).queue_size :=
  c10_queue_never_grows 2 15 85 85 _
    (Relation.ReflTransGen.single (PoolStep.adjust (initPool 2 15 85 85) 90 40))

end Vulmap
